import Mathlib

/-!
# Admission validation of SpinApp resources

A shallow embedding of `internal/webhook/spinapp_validating.go` and theorems
about it.

Conventions of the embedding:

* a Go `map[string]T` is an association list `List (String × T)`; `m[k]` is
  `List.lookup k m` (the comma-ok form is the `Option`), and `len(m) != 0` is
  `m ≠ []`, which also covers the nil map (`[]`);
* a Go pointer that may be nil is an `Option`; a Go `error` is an `Option`;
* `int32` replica counts are `Int` (the code only compares them with constants);
* `resource.Quantity` (parse, compare, render) belongs to the Kubernetes
  libraries, outside this repository: it is a parameter, `QuantityAPI`;
* logging has no influence on results and is left out.
-/

namespace SpinOperator

/-! ## Library types used by the validator -/

/-- Go `error` value, as returned by the client or by a lookup closure. -/
inductive GoError where
  | notFound (name : String)
  | other (msg : String)
  deriving DecidableEq, Repr

/-- The operations of `k8s.io/apimachinery/pkg/api/resource` the validator calls:
`ParseQuantity`, `Quantity.Cmp` and `Quantity.String`. -/
structure QuantityAPI where
  Quantity : Type
  ParseQuantity : String → Option Quantity
  Cmp : Quantity → Quantity → Int
  String : Quantity → String

/-- Elements of a `field.Path` as built by `NewPath`, `Child` and `Key`. -/
inductive Path where
  | NewPath (name : String)
  | Child (parent : Path) (name : String)
  | Key (parent : Path) (key : String)
  deriving DecidableEq, Repr

/-- Rendering `Path.String()`: children are joined by dots, keys are bracketed. -/
def Path.toStr : Path → String
  | .NewPath name => name
  | .Child parent name => parent.toStr ++ "." ++ name
  | .Key parent key => parent.toStr ++ "[" ++ key ++ "]"

/-- The `field.ErrorType` values; the validator only produces `Invalid`. -/
inductive ErrorType where
  | ErrorTypeInvalid
  deriving DecidableEq, Repr

/-- The values the validator passes as `BadValue` (an `interface{}` in Go). -/
inductive BadValue where
  | str (s : String)
  | int32 (n : Int)
  | stringMap (m : List (String × String))
  deriving DecidableEq, Repr

/-- A `field.Error`. -/
structure FieldError where
  ErrType : ErrorType
  Field : String
  BadValue : BadValue
  Detail : String
  deriving DecidableEq, Repr

/-- `field.Invalid(path, value, detail)`. -/
def fieldInvalid (path : Path) (value : BadValue) (detail : String) : FieldError :=
  { ErrType := .ErrorTypeInvalid, Field := path.toStr, BadValue := value, Detail := detail }

/-- A `schema.GroupKind`. -/
structure GroupKind where
  Group : String
  Kind : String
  deriving DecidableEq, Repr

/-- The `*apierrors.StatusError` built by `apierrors.NewInvalid`: one rejection
for the resource `Name` of kind `Kind`, carrying every field error as a cause. -/
structure StatusError where
  Kind : GroupKind
  Name : String
  Causes : List FieldError
  deriving DecidableEq, Repr

/-- `apierrors.NewInvalid(qualifiedKind, name, errs)`. -/
def NewInvalid (qualifiedKind : GroupKind) (name : String) (errs : List FieldError) :
    StatusError :=
  { Kind := qualifiedKind, Name := name, Causes := errs }

/-- `client.ObjectKey`. -/
structure ObjectKey where
  Name : String
  Namespace : String
  deriving DecidableEq, Repr

/-! ## API types (`api/v1alpha1`) -/

/-- `SpinAppExecutorSpec`, with the one field the validator reads. -/
structure SpinAppExecutorSpec where
  CreateDeployment : Bool
  deriving DecidableEq, Repr

/-- `SpinAppExecutor`. -/
structure SpinAppExecutor where
  Name : String
  Namespace : String
  Spec : SpinAppExecutorSpec
  deriving DecidableEq, Repr

/-- `Resources`: the declared limits and requests, keyed by resource name. -/
structure Resources (L : QuantityAPI) where
  Limits : List (String × L.Quantity)
  Requests : List (String × L.Quantity)

/-- `SpinAppSpec`, with the fields the validator reads. -/
structure SpinAppSpec (L : QuantityAPI) where
  Executor : String
  Replicas : Int
  EnableAutoscaling : Bool
  DeploymentAnnotations : List (String × String)
  PodAnnotations : List (String × String)
  Resources : Resources L
  InvocationLimits : List (String × String)

/-- `SpinApp`: object metadata and spec. -/
structure SpinApp (L : QuantityAPI) where
  Name : String
  Namespace : String
  Spec : SpinAppSpec L

/-- `corev1.ResourceMemory`. -/
def ResourceMemory : String := "memory"

/-- `SpinAppValidator`: the client, reduced to its `Get` on executors. `Get`
either fails or fills in the executor. -/
structure SpinAppValidator where
  Get : ObjectKey → Except GoError SpinAppExecutor

/-- The result type of an executor lookup closure: `(*SpinAppExecutor, error)`. -/
abbrev Lookup := String → Option SpinAppExecutor × Option GoError

/-! ## The validator -/

/-- `SpinAppValidator.fetchExecutor`: the lookup of a named executor in the
namespace of the SpinApp. -/
def SpinAppValidator.fetchExecutor (v : SpinAppValidator) (spinAppNs : String) : Lookup :=
  fun name =>
    match v.Get { Name := name, Namespace := spinAppNs } with
    | .error err => (none, some err)
    | .ok executor => (some executor, none)

/-- `validateExecutor`. -/
def validateExecutor {L : QuantityAPI} (spec : SpinAppSpec L) (fetchExecutor : Lookup) :
    Option SpinAppExecutor × Option FieldError :=
  if spec.Executor = "" then
    (none, some (fieldInvalid ((Path.NewPath "spec").Child "executor")
      (.str spec.Executor)
      "executor must be set, likely no default executor was set because you have no executors installed"))
  else
    match fetchExecutor spec.Executor with
    | (_, some _) =>
      (none, some (fieldInvalid ((Path.NewPath "spec").Child "executor")
        (.str spec.Executor) "executor does not exist in namespace"))
    | (executor, none) => (executor, none)

/-- `validateReplicas`. -/
def validateReplicas {L : QuantityAPI} (spec : SpinAppSpec L) : Option FieldError :=
  if spec.EnableAutoscaling && spec.Replicas != 0 then
    some (fieldInvalid ((Path.NewPath "spec").Child "replicas") (.int32 spec.Replicas)
      "replicas cannot be set when autoscaling is enabled")
  else if !spec.EnableAutoscaling && decide (spec.Replicas < 1) then
    some (fieldInvalid ((Path.NewPath "spec").Child "replicas") (.int32 spec.Replicas)
      "replicas must be > 0")
  else
    none

/-- `validateAnnotations`. -/
def validateAnnotations {L : QuantityAPI} (spec : SpinAppSpec L)
    (executor : Option SpinAppExecutor) : Option FieldError :=
  match executor with
  | none => none
  | some executor =>
    if executor.Spec.CreateDeployment then
      none
    else if spec.DeploymentAnnotations.length != 0 then
      some (fieldInvalid ((Path.NewPath "spec").Child "deploymentAnnotations")
        (.stringMap spec.DeploymentAnnotations)
        "deploymentAnnotations can't be set when the executor does not use operator deployments")
    else if spec.PodAnnotations.length != 0 then
      some (fieldInvalid ((Path.NewPath "spec").Child "podAnnotations")
        (.stringMap spec.PodAnnotations)
        "podAnnotations can't be set when the executor does not use operator deployments")
    else
      none

/-- `validateInvocationQuantity`: compares the invocation quantity with the
limit when both a request and a limit are declared, else with whichever of the
two is declared, and accepts when neither is. -/
def validateInvocationQuantity {L : QuantityAPI} (invocationQuantity : L.Quantity)
    (spec : SpinAppSpec L) (resourceType : String) : Option FieldError :=
  let constraint : Option (L.Quantity × String) :=
    match spec.Resources.Requests.lookup resourceType,
          spec.Resources.Limits.lookup resourceType with
    | some _, some limitQuantity => some (limitQuantity, "limit")
    | some requestQuantity, none => some (requestQuantity, "request")
    | none, some limitQuantity => some (limitQuantity, "limit")
    | none, none => none
  match constraint with
  | none => none
  | some (constraintQuantity, constraintType) =>
    if L.Cmp invocationQuantity constraintQuantity > 0 then
      some (fieldInvalid (((Path.NewPath "spec").Child "invocationLimits").Key resourceType)
        (.str (L.String invocationQuantity))
        ("invocation limit quantity cannot be greater than the " ++ resourceType ++ " "
          ++ constraintType ++ " (" ++ L.String constraintQuantity ++ ")"))
    else
      none

/-- `validateInvocationLimits`. -/
def validateInvocationLimits {L : QuantityAPI} (spec : SpinAppSpec L) : Option FieldError :=
  match spec.InvocationLimits.lookup "memory" with
  | some limit =>
    match L.ParseQuantity limit with
    | none =>
      some (fieldInvalid (((Path.NewPath "spec").Child "invocationLimits").Key "memory")
        (.str limit) "memory limit must be a valid memory quantity (e.g. 128Mi, 1Gi)")
    | some invocationQuantity =>
      validateInvocationQuantity invocationQuantity spec ResourceMemory
  | none => none

/-- Go `append(allErrs, err)` guarded by `err != nil`. -/
def appendErr (allErrs : List FieldError) (err : Option FieldError) : List FieldError :=
  match err with
  | some e => allErrs ++ [e]
  | none => allErrs

/-- The accumulation of `allErrs` in `SpinAppValidator.validateSpinApp`, up to
the test of its length. -/
def SpinAppValidator.allErrs {L : QuantityAPI} (v : SpinAppValidator) (spinApp : SpinApp L) :
    List FieldError :=
  let allErrs : List FieldError := []
  let (executor, err) := validateExecutor spinApp.Spec (v.fetchExecutor spinApp.Namespace)
  let allErrs := appendErr allErrs err
  let allErrs := appendErr allErrs (validateReplicas spinApp.Spec)
  let allErrs := appendErr allErrs (validateAnnotations spinApp.Spec executor)
  let allErrs := appendErr allErrs (validateInvocationLimits spinApp.Spec)
  allErrs

/-- `SpinAppValidator.validateSpinApp`. -/
def SpinAppValidator.validateSpinApp {L : QuantityAPI} (v : SpinAppValidator)
    (spinApp : SpinApp L) : Option StatusError :=
  let allErrs := v.allErrs spinApp
  if allErrs.length = 0 then
    none
  else
    some (NewInvalid { Group := "core.spinkube.dev", Kind := "SpinApp" } spinApp.Name allErrs)

/-- `SpinAppValidator.ValidateCreate`: warnings and error. -/
def SpinAppValidator.ValidateCreate {L : QuantityAPI} (v : SpinAppValidator)
    (obj : SpinApp L) : List String × Option StatusError :=
  ([], v.validateSpinApp obj)

/-- `SpinAppValidator.ValidateUpdate`: warnings and error. -/
def SpinAppValidator.ValidateUpdate {L : QuantityAPI} (v : SpinAppValidator)
    (_oldObj newObj : SpinApp L) : List String × Option StatusError :=
  ([], v.validateSpinApp newObj)

/-- `SpinAppValidator.ValidateDelete`: warnings and error. -/
def SpinAppValidator.ValidateDelete {L : QuantityAPI} (_v : SpinAppValidator)
    (_obj : SpinApp L) : List String × Option StatusError :=
  ([], none)

/-! ## A concrete quantity library

`BinarySI` implements `QuantityAPI` on a fragment of the Kubernetes quantity
grammar: one to nine decimal digits followed by `Ki`, `Mi` or `Gi`. On these
strings it agrees with `resource.ParseQuantity`; every other string is a parse
failure here. It serves to evaluate the validator on concrete inputs; the
general theorems hold for every `QuantityAPI`. -/

/-- The power of 1024 named by a binary suffix. -/
def binarySuffix : List Char → Option Nat
  | ['K', 'i'] => some 1
  | ['M', 'i'] => some 2
  | ['G', 'i'] => some 3
  | _ => none

/-- The number written by a list of decimal digits. -/
def digitsValue (ds : List Char) : Nat :=
  ds.foldl (fun n c => 10 * n + (c.toNat - 48)) 0

/-- Parsing `<digits><Ki|Mi|Gi>` to a number of bytes. -/
def parseBinarySI (s : String) : Option Nat :=
  let ds := s.data.takeWhile Char.isDigit
  let rest := s.data.dropWhile Char.isDigit
  if ds.length = 0 ∨ 9 < ds.length then none
  else
    match binarySuffix rest with
    | some k => some (digitsValue ds * 1024 ^ k)
    | none => none

/-- `removeInt64Factors(value, 1024)`: divides by 1024 while the value is at
least 1024 and divisible; returns the mantissa and the number of divisions. -/
def removeFactors1024 : Nat → Nat → Nat → Nat × Nat
  | 0, value, times => (value, times)
  | fuel + 1, value, times =>
    if 1024 ≤ value ∧ value % 1024 = 0 then removeFactors1024 fuel (value / 1024) (times + 1)
    else (value, times)

/-- The binary suffix of a power of 1024. -/
def suffixOf : Nat → String
  | 0 => ""
  | 1 => "Ki"
  | 2 => "Mi"
  | 3 => "Gi"
  | 4 => "Ti"
  | 5 => "Pi"
  | _ => "Ei"

/-- Canonical rendering of a number of bytes in binary format. -/
def renderBinarySI (value : Nat) : String :=
  let r := removeFactors1024 6 value 0
  Nat.repr r.1 ++ suffixOf r.2

/-- Three-way comparison, as `Quantity.Cmp`. -/
def cmpNat (a b : Nat) : Int :=
  if a < b then -1 else if a = b then 0 else 1

/-- The concrete quantity library. -/
@[reducible] def BinarySI : QuantityAPI :=
  { Quantity := Nat, ParseQuantity := parseBinarySI, Cmp := cmpNat, String := renderBinarySI }

/-! ## Sample inputs -/

/-- The zero-value spec: every field empty, zero or false. -/
def zeroSpec (L : QuantityAPI) : SpinAppSpec L :=
  { Executor := "", Replicas := 0, EnableAutoscaling := false, DeploymentAnnotations := [],
    PodAnnotations := [], Resources := { Limits := [], Requests := [] }, InvocationLimits := [] }

/-- An executor that does not create deployments. -/
def deploymentlessExecutor : SpinAppExecutor :=
  { Name := "an-executor", Namespace := "default", Spec := { CreateDeployment := false } }

/-- An executor that creates deployments. -/
def deploymentfullExecutor : SpinAppExecutor :=
  { Name := "an-executor", Namespace := "default", Spec := { CreateDeployment := true } }

/-- A client whose store is empty: every `Get` reports not-found. -/
def emptyStore : SpinAppValidator :=
  { Get := fun key => .error (.notFound key.Name) }

/-- A client whose store holds `deploymentlessExecutor` under its own key. -/
def deploymentlessStore : SpinAppValidator :=
  { Get := fun key =>
      if key = { Name := "an-executor", Namespace := "default" } then .ok deploymentlessExecutor
      else .error (.notFound key.Name) }

/-- The group and kind under which `validateSpinApp` reports a rejection. -/
def spinAppKind : GroupKind := { Group := "core.spinkube.dev", Kind := "SpinApp" }

/-- A SpinApp with an empty executor, replicas 0 without autoscaling and an
unparseable memory invocation limit. -/
def threeDefectsApp : SpinApp BinarySI :=
  { Name := "app", Namespace := "default",
    Spec := { zeroSpec BinarySI with InvocationLimits := [("memory", "garbage")] } }

/-- A lookup that succeeds on every name, with `deploymentfullExecutor`. -/
def alwaysFound : Lookup := fun _ => (some deploymentfullExecutor, none)

/-- A lookup that fails on every name with an error other than not-found. -/
def alwaysFails : Lookup := fun _ => (none, some (.other "connection refused"))

/-- A spec that names the executor `an-executor` and is otherwise zero. -/
def namedSpec (L : QuantityAPI) : SpinAppSpec L :=
  { zeroSpec L with Executor := "an-executor" }

/-- A spec naming `an-executor` with both annotation maps non-empty. -/
def bothAnnotatedSpec (L : QuantityAPI) : SpinAppSpec L :=
  { zeroSpec L with
    Executor := "an-executor", Replicas := 1,
    DeploymentAnnotations := [("key", "asdf")], PodAnnotations := [("key", "asdf")] }

/-- A SpinApp in namespace `default` with spec `bothAnnotatedSpec`. -/
def bothAnnotatedApp : SpinApp BinarySI :=
  { Name := "app", Namespace := "default", Spec := bothAnnotatedSpec BinarySI }

/-- The comparison target in the words of the specification: the memory limit
when a memory limit is declared, the memory request when only a request is
declared, and none when neither is declared. -/
def comparisonTarget {L : QuantityAPI} (spec : SpinAppSpec L) : Option L.Quantity :=
  match spec.Resources.Limits.lookup "memory" with
  | some limitQuantity => some limitQuantity
  | none => spec.Resources.Requests.lookup "memory"

/-- A spec with one replica and a memory invocation limit of 50Mi, for the given
memory requests and limits. -/
def invocationSpec (requests limits : List (String × Nat)) : SpinAppSpec BinarySI :=
  { zeroSpec BinarySI with
    Replicas := 1, Resources := { Limits := limits, Requests := requests },
    InvocationLimits := [("memory", "50Mi")] }

/-- The number of bytes of 40Mi. -/
def mi40 : Nat := 41943040

/-- The number of bytes of 50Mi. -/
def mi50 : Nat := 52428800

/-- The number of bytes of 100Mi. -/
def mi100 : Nat := 104857600

/-! ## Rendering of a field error (`field.Error.Error`) -/

/-- `ErrorType.String()`. -/
def ErrorType.toStr : ErrorType → String
  | .ErrorTypeInvalid => "Invalid value"

/-- How `ErrorBody` prints the values that are not numbers: strings go through
the `%q` verb of `fmt`, maps through the JSON encoder. Both belong to the Go
libraries and are parameters. -/
structure ValueFormat where
  quote : String → String
  marshal : List (String × String) → String

/-- Modelled from the spec: `field.Error.ErrorBody()` of the Kubernetes library,
which is not part of this repository, for an Invalid error. The message format
is `Invalid value: <value-repr>: <message>`, with numbers as decimal literals;
the detail is appended when it is not empty. -/
def FieldError.ErrorBody (fmt : ValueFormat) (e : FieldError) : String :=
  let value : String :=
    match e.BadValue with
    | .int32 n => toString n
    | .str t => fmt.quote t
    | .stringMap m => fmt.marshal m
  let s := e.ErrType.toStr ++ ": " ++ value
  if e.Detail.length != 0 then s ++ ": " ++ e.Detail else s

/-- Modelled from the spec: `field.Error.Error()` of the Kubernetes library, the
format `<field.path>: Invalid value: <value-repr>: <message>`. -/
def FieldError.Error (fmt : ValueFormat) (e : FieldError) : String :=
  e.Field ++ ": " ++ e.ErrorBody fmt

/-- A value format for evaluating renderings on concrete inputs: a string is put
between double quotes, as `%q` does when no character needs escaping, and a map
is written as a JSON object in the order of the association list. -/
def quotingFormat : ValueFormat :=
  { quote := fun t => "\"" ++ t ++ "\"",
    marshal := fun m =>
      "\x7b" ++ ",".intercalate (m.map fun kv => "\"" ++ kv.1 ++ "\":\"" ++ kv.2 ++ "\"")
        ++ "\x7d" }

/-! ## Further sample inputs -/

/-- A client whose store holds `an-executor` in namespace `other` only. -/
def otherNamespaceStore : SpinAppValidator :=
  { Get := fun key =>
      if key = { Name := "an-executor", Namespace := "other" } then
        .ok { Name := "an-executor", Namespace := "other", Spec := { CreateDeployment := true } }
      else .error (.notFound key.Name) }

/-- A SpinApp in namespace `default` naming `an-executor`, with one replica. -/
def namedApp : SpinApp BinarySI :=
  { Name := "app", Namespace := "default",
    Spec := { zeroSpec BinarySI with Executor := "an-executor", Replicas := 1 } }

/-- The spec `invocationSpec requests limits` with further keys: an unparseable
`cpu` invocation limit and a `cpu` request and limit. -/
def extraKeysSpec (requests limits : List (String × Nat)) : SpinAppSpec BinarySI :=
  { invocationSpec requests limits with
    Resources := { Limits := ("cpu", 2) :: limits, Requests := ("cpu", 1) :: requests },
    InvocationLimits := [("cpu", "garbage"), ("memory", "50Mi")] }

/-- A spec with an empty executor whose two annotation maps are non-empty. -/
def annotatedNoExecutorApp : SpinApp BinarySI :=
  { Name := "app", Namespace := "default",
    Spec := { bothAnnotatedSpec BinarySI with Executor := "" } }

/-! ## Auxiliary lemmas -/

theorem appendErr_eq (allErrs : List FieldError) (err : Option FieldError) :
    appendErr allErrs err = allErrs ++ err.toList := by
  cases err <;> simp [appendErr]

theorem allErrs_eq_concat {L : QuantityAPI} (v : SpinAppValidator) (spinApp : SpinApp L) :
    v.allErrs spinApp
      = (validateExecutor spinApp.Spec (v.fetchExecutor spinApp.Namespace)).2.toList
        ++ (validateReplicas spinApp.Spec).toList
        ++ (validateAnnotations spinApp.Spec
              (validateExecutor spinApp.Spec (v.fetchExecutor spinApp.Namespace)).1).toList
        ++ (validateInvocationLimits spinApp.Spec).toList := by
  simp [SpinAppValidator.allErrs, appendErr_eq]

theorem validateSpinApp_eq {L : QuantityAPI} (v : SpinAppValidator) (spinApp : SpinApp L) :
    v.validateSpinApp spinApp
      = if v.allErrs spinApp = [] then none
        else some (NewInvalid spinAppKind spinApp.Name (v.allErrs spinApp)) := by
  simp [SpinAppValidator.validateSpinApp, spinAppKind, List.length_eq_zero]

theorem toList_eq_nil_iff {α : Type} (o : Option α) : o.toList = [] ↔ o = none := by
  cases o <;> simp

theorem validateExecutor_empty {L : QuantityAPI} (spec : SpinAppSpec L) (fetchExecutor : Lookup)
    (h : spec.Executor = "") :
    validateExecutor spec fetchExecutor
      = (none, some { ErrType := .ErrorTypeInvalid, Field := "spec.executor",
                      BadValue := .str "",
                      Detail := "executor must be set, likely no default executor was set because you have no executors installed" }) := by
  have hp : ((Path.NewPath "spec").Child "executor").toStr = "spec.executor" := by decide
  simp [validateExecutor, h, fieldInvalid, hp]

theorem validateReplicas_zero {L : QuantityAPI} (spec : SpinAppSpec L)
    (hr : spec.Replicas = 0) (ha : spec.EnableAutoscaling = false) :
    validateReplicas spec
      = some { ErrType := .ErrorTypeInvalid, Field := "spec.replicas", BadValue := .int32 0,
               Detail := "replicas must be > 0" } := by
  have hp : ((Path.NewPath "spec").Child "replicas").toStr = "spec.replicas" := by decide
  simp [validateReplicas, hr, ha, fieldInvalid, hp]

theorem validateInvocationLimits_unparsed {L : QuantityAPI} (spec : SpinAppSpec L) (limit : String)
    (hl : spec.InvocationLimits.lookup "memory" = some limit)
    (hp : L.ParseQuantity limit = none) :
    validateInvocationLimits spec
      = some { ErrType := .ErrorTypeInvalid, Field := "spec.invocationLimits[memory]",
               BadValue := .str limit,
               Detail := "memory limit must be a valid memory quantity (e.g. 128Mi, 1Gi)" } := by
  have hs : (((Path.NewPath "spec").Child "invocationLimits").Key "memory").toStr
      = "spec.invocationLimits[memory]" := by decide
  simp [validateInvocationLimits, hl, hp, fieldInvalid, hs]

/-! ## Aggregation (`validateSpinApp`) -/

/-- C1: the error list aggregated by `validateSpinApp` is the concatenation, in
this order, of the errors of `validateExecutor`, `validateReplicas`,
`validateAnnotations` (on the executor returned by `validateExecutor`) and
`validateInvocationLimits`, every rule being evaluated whatever the earlier ones
returned; the rejection carries exactly this list; and a spec with an empty
executor, replicas 0 without autoscaling and an unparseable memory invocation
limit yields exactly the three errors executor, replicas, invocation limits. -/
theorem validateSpinApp_aggregates_in_order {L : QuantityAPI} (v : SpinAppValidator)
    (spinApp : SpinApp L) :
    (v.allErrs spinApp
      = (validateExecutor spinApp.Spec (v.fetchExecutor spinApp.Namespace)).2.toList
        ++ (validateReplicas spinApp.Spec).toList
        ++ (validateAnnotations spinApp.Spec
              (validateExecutor spinApp.Spec (v.fetchExecutor spinApp.Namespace)).1).toList
        ++ (validateInvocationLimits spinApp.Spec).toList)
    ∧ (v.validateSpinApp spinApp
        = if v.allErrs spinApp = [] then none
          else some (NewInvalid spinAppKind spinApp.Name (v.allErrs spinApp)))
    ∧ (∀ limit : String, spinApp.Spec.Executor = "" → spinApp.Spec.Replicas = 0 →
        spinApp.Spec.EnableAutoscaling = false →
        spinApp.Spec.InvocationLimits.lookup "memory" = some limit →
        L.ParseQuantity limit = none →
        v.allErrs spinApp
          = [ { ErrType := .ErrorTypeInvalid, Field := "spec.executor", BadValue := .str "",
                Detail := "executor must be set, likely no default executor was set because you have no executors installed" },
              { ErrType := .ErrorTypeInvalid, Field := "spec.replicas", BadValue := .int32 0,
                Detail := "replicas must be > 0" },
              { ErrType := .ErrorTypeInvalid, Field := "spec.invocationLimits[memory]",
                BadValue := .str limit,
                Detail := "memory limit must be a valid memory quantity (e.g. 128Mi, 1Gi)" } ]) := by
  refine ⟨allErrs_eq_concat v spinApp, validateSpinApp_eq v spinApp, ?_⟩
  intro limit he hr ha hl hp
  rw [allErrs_eq_concat, validateExecutor_empty _ _ he, validateReplicas_zero _ hr ha,
    validateInvocationLimits_unparsed _ limit hl hp]
  simp [validateAnnotations]

/-- Witness of C1 on `threeDefectsApp` with an empty store: three errors, in the
order executor, replicas, invocation limits. -/
theorem validateSpinApp_aggregates_in_order_witness :
    emptyStore.allErrs threeDefectsApp
      = [ { ErrType := .ErrorTypeInvalid, Field := "spec.executor", BadValue := .str "",
            Detail := "executor must be set, likely no default executor was set because you have no executors installed" },
          { ErrType := .ErrorTypeInvalid, Field := "spec.replicas", BadValue := .int32 0,
            Detail := "replicas must be > 0" },
          { ErrType := .ErrorTypeInvalid, Field := "spec.invocationLimits[memory]",
            BadValue := .str "garbage",
            Detail := "memory limit must be a valid memory quantity (e.g. 128Mi, 1Gi)" } ] :=
  (validateSpinApp_aggregates_in_order emptyStore threeDefectsApp).2.2 "garbage"
    (by decide) (by decide) (by decide) (by decide) rfl

/-- C2: `validateSpinApp` returns no error if and only if the aggregated list is
empty, that is if and only if none of the four rules produces an error; otherwise
it returns one single Invalid rejection carrying the whole aggregated list; and
`ValidateCreate` returns no warnings, with the verdict of `validateSpinApp`. -/
theorem validateSpinApp_verdict {L : QuantityAPI} (v : SpinAppValidator) (spinApp : SpinApp L) :
    (v.validateSpinApp spinApp = none ↔ v.allErrs spinApp = [])
    ∧ (v.allErrs spinApp = [] ↔
        ((validateExecutor spinApp.Spec (v.fetchExecutor spinApp.Namespace)).2 = none
          ∧ validateReplicas spinApp.Spec = none
          ∧ validateAnnotations spinApp.Spec
              (validateExecutor spinApp.Spec (v.fetchExecutor spinApp.Namespace)).1 = none
          ∧ validateInvocationLimits spinApp.Spec = none))
    ∧ (v.allErrs spinApp ≠ [] →
        v.validateSpinApp spinApp
          = some (NewInvalid spinAppKind spinApp.Name (v.allErrs spinApp)))
    ∧ (v.ValidateCreate spinApp).1 = []
    ∧ (v.ValidateCreate spinApp).2 = v.validateSpinApp spinApp := by
  refine ⟨?_, ?_, ?_, rfl, rfl⟩
  · rw [validateSpinApp_eq]
    by_cases h : v.allErrs spinApp = [] <;> simp [h]
  · rw [allErrs_eq_concat]
    simp [toList_eq_nil_iff, and_assoc]
  · intro h
    rw [validateSpinApp_eq]
    simp [h]

/-- Witness of C2 on `threeDefectsApp`: one rejection carrying the three errors. -/
theorem validateSpinApp_verdict_witness :
    emptyStore.allErrs threeDefectsApp ≠ []
    ∧ emptyStore.validateSpinApp threeDefectsApp
        = some (NewInvalid spinAppKind "app" (emptyStore.allErrs threeDefectsApp)) :=
  ⟨by decide, (validateSpinApp_verdict emptyStore threeDefectsApp).2.2.1 (by decide)⟩

/-! ## The executor rule (`validateExecutor`) -/

/-- C3: for every spec whose executor field is the empty string and for every
lookup function, `validateExecutor` returns no executor and the Invalid error at
`spec.executor` with value `""` and the message "executor must be set, likely no
default executor was set because you have no executors installed"; neither the
other fields nor the lookup influence the outcome. -/
theorem validateExecutor_empty_name_rejected {L : QuantityAPI} (spec : SpinAppSpec L)
    (fetchExecutor : Lookup) (h : spec.Executor = "") :
    validateExecutor spec fetchExecutor
      = (none, some { ErrType := .ErrorTypeInvalid, Field := "spec.executor",
                      BadValue := .str "",
                      Detail := "executor must be set, likely no default executor was set because you have no executors installed" }) :=
  validateExecutor_empty spec fetchExecutor h

/-- Witness of C3: the zero-value spec with a lookup that would succeed. -/
theorem validateExecutor_empty_name_rejected_witness :
    (zeroSpec BinarySI).Executor = ""
    ∧ alwaysFound "" = (some deploymentfullExecutor, none)
    ∧ validateExecutor (zeroSpec BinarySI) alwaysFound
        = (none, some { ErrType := .ErrorTypeInvalid, Field := "spec.executor",
                        BadValue := .str "",
                        Detail := "executor must be set, likely no default executor was set because you have no executors installed" }) :=
  ⟨rfl, rfl, validateExecutor_empty_name_rejected (zeroSpec BinarySI) alwaysFound rfl⟩

/-- C4: for every spec with a non-empty executor name and every lookup that
returns an error for that name, whatever the error and whatever executor pointer
comes with it, `validateExecutor` returns no executor and the Invalid error at
`spec.executor` whose value is the executor name and whose message is "executor
does not exist in namespace". -/
theorem validateExecutor_lookup_error_rejected {L : QuantityAPI} (spec : SpinAppSpec L)
    (fetchExecutor : Lookup) (err : GoError) (h : spec.Executor ≠ "")
    (hf : (fetchExecutor spec.Executor).2 = some err) :
    validateExecutor spec fetchExecutor
      = (none, some { ErrType := .ErrorTypeInvalid, Field := "spec.executor",
                      BadValue := .str spec.Executor,
                      Detail := "executor does not exist in namespace" }) := by
  have hp : ((Path.NewPath "spec").Child "executor").toStr = "spec.executor" := by decide
  unfold validateExecutor
  rw [if_neg h]
  rcases hx : fetchExecutor spec.Executor with ⟨executor, e⟩
  rw [hx] at hf
  simp only at hf
  subst hf
  simp [fieldInvalid, hp]

/-- Witness of C4: a lookup failing with an error other than not-found. -/
theorem validateExecutor_lookup_error_rejected_witness :
    (namedSpec BinarySI).Executor ≠ ""
    ∧ (alwaysFails (namedSpec BinarySI).Executor).2 = some (.other "connection refused")
    ∧ validateExecutor (namedSpec BinarySI) alwaysFails
        = (none, some { ErrType := .ErrorTypeInvalid, Field := "spec.executor",
                        BadValue := .str "an-executor",
                        Detail := "executor does not exist in namespace" }) :=
  ⟨by decide, rfl,
    validateExecutor_lookup_error_rejected (namedSpec BinarySI) alwaysFails
      (.other "connection refused") (by decide) rfl⟩

/-- C5: for every spec with a non-empty executor name and every lookup that
succeeds on that name, `validateExecutor` returns no error and exactly the
executor the lookup returned for `spec.Executor`; the lookup is consulted at that
name only, so two lookups that agree there give the same result. -/
theorem validateExecutor_lookup_success {L : QuantityAPI} (spec : SpinAppSpec L)
    (fetchExecutor : Lookup) (h : spec.Executor ≠ "")
    (hf : (fetchExecutor spec.Executor).2 = none) :
    validateExecutor spec fetchExecutor = ((fetchExecutor spec.Executor).1, none)
    ∧ ∀ other : Lookup, other spec.Executor = fetchExecutor spec.Executor →
        validateExecutor spec other = validateExecutor spec fetchExecutor := by
  constructor
  · unfold validateExecutor
    rw [if_neg h]
    rcases hx : fetchExecutor spec.Executor with ⟨executor, e⟩
    rw [hx] at hf
    simp only at hf
    subst hf
    rfl
  · intro other ho
    unfold validateExecutor
    rw [ho]

/-- Witness of C5: the lookup result for `an-executor` is returned as it is. -/
theorem validateExecutor_lookup_success_witness :
    (namedSpec BinarySI).Executor ≠ ""
    ∧ validateExecutor (namedSpec BinarySI) alwaysFound = (some deploymentfullExecutor, none) :=
  ⟨by decide,
    (validateExecutor_lookup_success (namedSpec BinarySI) alwaysFound (by decide) rfl).1⟩

/-! ## The replica rule (`validateReplicas`) -/

/-- C6: for every spec and every replica count (all integers, hence every
32-bit count, negative ones included), `validateReplicas` rejects if and only if
autoscaling is enabled and replicas ≠ 0, or autoscaling is disabled and
replicas < 1; replicas = 0 is accepted exactly when autoscaling is enabled, and
with autoscaling disabled every replicas ≥ 1 is accepted. -/
theorem validateReplicas_rejects_iff {L : QuantityAPI} (spec : SpinAppSpec L) :
    (validateReplicas spec ≠ none ↔
        (spec.EnableAutoscaling = true ∧ spec.Replicas ≠ 0)
          ∨ (spec.EnableAutoscaling = false ∧ spec.Replicas < 1))
    ∧ (spec.Replicas = 0 → (validateReplicas spec = none ↔ spec.EnableAutoscaling = true))
    ∧ (spec.EnableAutoscaling = false → 1 ≤ spec.Replicas → validateReplicas spec = none) := by
  have key : validateReplicas spec ≠ none ↔
      (spec.EnableAutoscaling = true ∧ spec.Replicas ≠ 0)
        ∨ (spec.EnableAutoscaling = false ∧ spec.Replicas < 1) := by
    unfold validateReplicas
    cases ha : spec.EnableAutoscaling
    · by_cases hr : spec.Replicas < 1 <;> simp [hr]
    · by_cases hr : spec.Replicas = 0 <;> simp [hr]
  refine ⟨key, ?_, ?_⟩
  · intro h0
    have hk := not_iff_not.mpr key
    rw [not_not] at hk
    rw [hk, h0]
    cases spec.EnableAutoscaling <;> simp
  · intro ha h1
    have hk := not_iff_not.mpr key
    rw [not_not] at hk
    rw [hk, ha]
    simp
    omega

/-- Witness of C6: without autoscaling, a negative 32-bit replica count is
rejected and one replica is accepted. -/
theorem validateReplicas_rejects_iff_witness :
    validateReplicas { zeroSpec BinarySI with Replicas := -2147483648 } ≠ none
    ∧ validateReplicas { zeroSpec BinarySI with Replicas := 1 } = none :=
  ⟨(validateReplicas_rejects_iff { zeroSpec BinarySI with Replicas := -2147483648 }).1.mpr
      (Or.inr ⟨rfl, by decide⟩),
    (validateReplicas_rejects_iff { zeroSpec BinarySI with Replicas := 1 }).2.2 rfl (by decide)⟩

/-! ## The annotation rule (`validateAnnotations`) -/

/-- C7: for every spec and every present executor, `validateAnnotations` rejects
if and only if the executor does not create deployments and at least one of
deploymentAnnotations, podAnnotations is non-empty; an executor that creates
deployments accepts any annotations, and a deployment-less executor accepts
exactly the specs with both annotation maps empty. -/
theorem validateAnnotations_rejects_iff {L : QuantityAPI} (spec : SpinAppSpec L)
    (executor : SpinAppExecutor) :
    (validateAnnotations spec (some executor) ≠ none ↔
        executor.Spec.CreateDeployment = false
          ∧ (spec.DeploymentAnnotations ≠ [] ∨ spec.PodAnnotations ≠ []))
    ∧ (executor.Spec.CreateDeployment = true → validateAnnotations spec (some executor) = none)
    ∧ (executor.Spec.CreateDeployment = false →
        (validateAnnotations spec (some executor) = none ↔
          spec.DeploymentAnnotations = [] ∧ spec.PodAnnotations = [])) := by
  refine ⟨?_, ?_, ?_⟩
  · unfold validateAnnotations
    cases hc : executor.Spec.CreateDeployment
    · by_cases hd : spec.DeploymentAnnotations = []
      · by_cases hp : spec.PodAnnotations = [] <;> simp [hc, hd, hp]
      · simp [hc, hd]
    · simp [hc]
  · intro hc
    simp [validateAnnotations, hc]
  · intro hc
    unfold validateAnnotations
    by_cases hd : spec.DeploymentAnnotations = []
    · by_cases hp : spec.PodAnnotations = [] <;> simp [hc, hd, hp]
    · simp [hc, hd]

/-- Witness of C7: annotations are accepted by an executor that creates
deployments and rejected by one that does not. -/
theorem validateAnnotations_rejects_iff_witness :
    validateAnnotations (bothAnnotatedSpec BinarySI) (some deploymentfullExecutor) = none
    ∧ validateAnnotations (bothAnnotatedSpec BinarySI) (some deploymentlessExecutor) ≠ none :=
  ⟨(validateAnnotations_rejects_iff (bothAnnotatedSpec BinarySI) deploymentfullExecutor).2.1 rfl,
    (validateAnnotations_rejects_iff (bothAnnotatedSpec BinarySI) deploymentlessExecutor).1.mpr
      ⟨rfl, Or.inl (by decide)⟩⟩

/-! ### Field paths of the errors of each rule -/

theorem validateExecutor_field {L : QuantityAPI} (spec : SpinAppSpec L) (fetchExecutor : Lookup)
    (e : FieldError) (h : (validateExecutor spec fetchExecutor).2 = some e) :
    e.Field = "spec.executor" := by
  have hp : ((Path.NewPath "spec").Child "executor").toStr = "spec.executor" := by decide
  unfold validateExecutor at h
  by_cases he : spec.Executor = ""
  · rw [if_pos he] at h
    simp only [Option.some.injEq] at h
    rw [← h]
    exact hp
  · rw [if_neg he] at h
    rcases hx : fetchExecutor spec.Executor with ⟨executor, err⟩
    rw [hx] at h
    cases err with
    | none => simp at h
    | some err =>
      simp only [Option.some.injEq] at h
      rw [← h]
      exact hp

theorem validateReplicas_field {L : QuantityAPI} (spec : SpinAppSpec L) (e : FieldError)
    (h : validateReplicas spec = some e) : e.Field = "spec.replicas" := by
  have hp : ((Path.NewPath "spec").Child "replicas").toStr = "spec.replicas" := by decide
  unfold validateReplicas at h
  split at h
  · simp only [Option.some.injEq] at h
    rw [← h]
    exact hp
  · split at h
    · simp only [Option.some.injEq] at h
      rw [← h]
      exact hp
    · simp at h

theorem validateInvocationLimits_field {L : QuantityAPI} (spec : SpinAppSpec L) (e : FieldError)
    (h : validateInvocationLimits spec = some e) : e.Field = "spec.invocationLimits[memory]" := by
  have hp : (((Path.NewPath "spec").Child "invocationLimits").Key "memory").toStr
      = "spec.invocationLimits[memory]" := by decide
  unfold validateInvocationLimits at h
  split at h
  · split at h
    · simp only [Option.some.injEq] at h
      rw [← h]
      exact hp
    · unfold validateInvocationQuantity at h
      simp only [ResourceMemory] at h
      split at h
      · simp at h
      · split at h
        · simp only [Option.some.injEq] at h
          rw [← h]
          exact hp
        · simp at h
  · simp at h

theorem validateAnnotations_deployment_first {L : QuantityAPI} (spec : SpinAppSpec L)
    (executor : SpinAppExecutor) (hc : executor.Spec.CreateDeployment = false)
    (hd : spec.DeploymentAnnotations ≠ []) :
    validateAnnotations spec (some executor)
      = some { ErrType := .ErrorTypeInvalid, Field := "spec.deploymentAnnotations",
               BadValue := .stringMap spec.DeploymentAnnotations,
               Detail := "deploymentAnnotations can't be set when the executor does not use operator deployments" } := by
  have hp : ((Path.NewPath "spec").Child "deploymentAnnotations").toStr
      = "spec.deploymentAnnotations" := by decide
  simp [validateAnnotations, hc, hd, fieldInvalid, hp]

theorem validateAnnotations_field_of_deployment {L : QuantityAPI} (spec : SpinAppSpec L)
    (executor : Option SpinAppExecutor) (hd : spec.DeploymentAnnotations ≠ []) (e : FieldError)
    (h : validateAnnotations spec executor = some e) : e.Field = "spec.deploymentAnnotations" := by
  cases executor with
  | none => simp [validateAnnotations] at h
  | some ex =>
    cases hc : ex.Spec.CreateDeployment
    · rw [validateAnnotations_deployment_first spec ex hc hd] at h
      simp only [Option.some.injEq] at h
      rw [← h]
    · simp [validateAnnotations, hc] at h

/-- C8, as the code has it: for every executor that does not create deployments
and every spec in which both deploymentAnnotations and podAnnotations are
non-empty, the annotation rule produces exactly one diagnostic, the one at
`spec.deploymentAnnotations`; the podAnnotations check is not reached once the
deploymentAnnotations check has failed, so the list aggregated by
`validateSpinApp` holds no error at `spec.podAnnotations`. -/
theorem validateAnnotations_both_nonempty_single_error {L : QuantityAPI}
    (spec : SpinAppSpec L) (executor : SpinAppExecutor)
    (hc : executor.Spec.CreateDeployment = false)
    (hd : spec.DeploymentAnnotations ≠ []) (_hp : spec.PodAnnotations ≠ []) :
    validateAnnotations spec (some executor)
      = some { ErrType := .ErrorTypeInvalid, Field := "spec.deploymentAnnotations",
               BadValue := .stringMap spec.DeploymentAnnotations,
               Detail := "deploymentAnnotations can't be set when the executor does not use operator deployments" }
    ∧ ∀ (v : SpinAppValidator) (spinApp : SpinApp L), spinApp.Spec = spec →
        ∀ e ∈ v.allErrs spinApp, e.Field ≠ "spec.podAnnotations" := by
  refine ⟨validateAnnotations_deployment_first spec executor hc hd, ?_⟩
  intro v spinApp hs e he
  subst hs
  rw [allErrs_eq_concat] at he
  simp only [List.mem_append, Option.mem_toList, Option.mem_def] at he
  rcases he with ((he | he) | he) | he
  · rw [validateExecutor_field _ _ e he]; decide
  · rw [validateReplicas_field _ e he]; decide
  · rw [validateAnnotations_field_of_deployment _ _ hd e he]; decide
  · rw [validateInvocationLimits_field _ e he]; decide

/-- Witness of the amended C8 on `bothAnnotatedSpec` and a deployment-less
executor. -/
theorem validateAnnotations_both_nonempty_single_error_witness :
    validateAnnotations (bothAnnotatedSpec BinarySI) (some deploymentlessExecutor)
      = some { ErrType := .ErrorTypeInvalid, Field := "spec.deploymentAnnotations",
               BadValue := .stringMap [("key", "asdf")],
               Detail := "deploymentAnnotations can't be set when the executor does not use operator deployments" } :=
  (validateAnnotations_both_nonempty_single_error (bothAnnotatedSpec BinarySI)
    deploymentlessExecutor rfl (by decide) (by decide)).1

/-- C8 as stated fails: with a deployment-less executor resolved from the store
and both annotation maps non-empty, validation reports one single error, at
`spec.deploymentAnnotations`, and none at `spec.podAnnotations`. -/
theorem validateAnnotations_two_diagnostics_counterexample :
    deploymentlessExecutor.Spec.CreateDeployment = false
    ∧ bothAnnotatedApp.Spec.DeploymentAnnotations ≠ []
    ∧ bothAnnotatedApp.Spec.PodAnnotations ≠ []
    ∧ (validateExecutor bothAnnotatedApp.Spec
        (deploymentlessStore.fetchExecutor bothAnnotatedApp.Namespace)).1
        = some deploymentlessExecutor
    ∧ deploymentlessStore.allErrs bothAnnotatedApp
        = [ { ErrType := .ErrorTypeInvalid, Field := "spec.deploymentAnnotations",
              BadValue := .stringMap [("key", "asdf")],
              Detail := "deploymentAnnotations can't be set when the executor does not use operator deployments" } ]
    ∧ ¬ ∃ e ∈ deploymentlessStore.allErrs bothAnnotatedApp, e.Field = "spec.podAnnotations" := by
  decide

/-! ## The invocation-limit rule (`validateInvocationLimits`) -/

theorem validateInvocationLimits_parsed {L : QuantityAPI} (spec : SpinAppSpec L)
    (limit : String) (q : L.Quantity)
    (hl : spec.InvocationLimits.lookup "memory" = some limit)
    (hq : L.ParseQuantity limit = some q) :
    validateInvocationLimits spec = validateInvocationQuantity q spec "memory" := by
  simp [validateInvocationLimits, hl, hq, ResourceMemory]

theorem validateInvocationQuantity_rejects_iff {L : QuantityAPI} (spec : SpinAppSpec L)
    (q : L.Quantity) :
    validateInvocationQuantity q spec "memory" ≠ none
      ↔ ∃ t, comparisonTarget spec = some t ∧ 0 < L.Cmp q t := by
  unfold validateInvocationQuantity comparisonTarget
  cases hr : spec.Resources.Requests.lookup "memory" with
  | none =>
    cases hlim : spec.Resources.Limits.lookup "memory" with
    | none => simp
    | some l => by_cases hc : 0 < L.Cmp q l <;> simp [hc]
  | some r =>
    cases hlim : spec.Resources.Limits.lookup "memory" with
    | none => by_cases hc : 0 < L.Cmp q r <;> simp [hc]
    | some l => by_cases hc : 0 < L.Cmp q l <;> simp [hc]

/-- C9: for every spec whose invocationLimits has a "memory" entry that parses
to a quantity q, `validateInvocationLimits` rejects if and only if a comparison
target exists and q is strictly greater than it (`Cmp` positive); the target is
the memory limit when a limit is declared (with or without a request), the
memory request when only a request is declared, and absent when neither is; q
equal to the target is accepted, and with neither declared every q is. -/
theorem validateInvocationLimits_rejects_iff {L : QuantityAPI} (spec : SpinAppSpec L)
    (limit : String) (q : L.Quantity)
    (hl : spec.InvocationLimits.lookup "memory" = some limit)
    (hq : L.ParseQuantity limit = some q) :
    (validateInvocationLimits spec ≠ none
        ↔ ∃ t, comparisonTarget spec = some t ∧ 0 < L.Cmp q t)
    ∧ (∀ l, spec.Resources.Limits.lookup "memory" = some l → comparisonTarget spec = some l)
    ∧ (∀ r, spec.Resources.Limits.lookup "memory" = none →
        spec.Resources.Requests.lookup "memory" = some r → comparisonTarget spec = some r)
    ∧ (spec.Resources.Limits.lookup "memory" = none →
        spec.Resources.Requests.lookup "memory" = none → comparisonTarget spec = none)
    ∧ (∀ t, comparisonTarget spec = some t → L.Cmp q t = 0 →
        validateInvocationLimits spec = none)
    ∧ (spec.Resources.Limits.lookup "memory" = none →
        spec.Resources.Requests.lookup "memory" = none →
        validateInvocationLimits spec = none) := by
  have key := validateInvocationQuantity_rejects_iff spec q
  rw [← validateInvocationLimits_parsed spec limit q hl hq] at key
  have hacc : validateInvocationLimits spec = none
      ↔ ¬ ∃ t, comparisonTarget spec = some t ∧ 0 < L.Cmp q t := by
    rw [← key, not_not]
  refine ⟨key, ?_, ?_, ?_, ?_, ?_⟩
  · intro l h
    simp [comparisonTarget, h]
  · intro r h1 h2
    simp [comparisonTarget, h1, h2]
  · intro h1 h2
    simp [comparisonTarget, h1, h2]
  · intro t ht h0
    rw [hacc]
    rintro ⟨u, hu, hpos⟩
    rw [ht] at hu
    cases hu
    omega
  · intro h1 h2
    rw [hacc]
    rintro ⟨u, hu, _⟩
    simp [comparisonTarget, h1, h2] at hu

/-- Witness of C9: request 40Mi only and invocation limit 50Mi is rejected;
limit 100Mi with request 40Mi is accepted. -/
theorem validateInvocationLimits_rejects_iff_witness :
    validateInvocationLimits (invocationSpec [("memory", mi40)] []) ≠ none
    ∧ ¬ validateInvocationLimits (invocationSpec [("memory", mi40)] [("memory", mi100)]) ≠ none :=
  ⟨(validateInvocationLimits_rejects_iff (invocationSpec [("memory", mi40)] []) "50Mi" mi50
      rfl rfl).1.mpr ⟨mi40, rfl, by decide⟩,
    fun h =>
      absurd
        ((validateInvocationLimits_rejects_iff
          (invocationSpec [("memory", mi40)] [("memory", mi100)]) "50Mi" mi50 rfl rfl).1.mp h)
        (by decide)⟩

theorem validateInvocationLimits_accepted_parses {L : QuantityAPI} (spec : SpinAppSpec L)
    (limit : String) (hacc : validateInvocationLimits spec = none)
    (hl : spec.InvocationLimits.lookup "memory" = some limit) :
    ∃ q, L.ParseQuantity limit = some q := by
  cases hq : L.ParseQuantity limit with
  | none => simp [validateInvocationLimits, hl, hq] at hacc
  | some q => exact ⟨q, rfl⟩

/-- C10, as the code has it: for every spec that `validateInvocationLimits`
accepts and whose invocationLimits has a "memory" entry, that entry parses as a
quantity, which does not exceed the memory limit when a limit is declared, and
does not exceed the memory request when a request is declared and no limit is.
When both are declared the request is not compared. -/
theorem validateInvocationLimits_accepted_bound {L : QuantityAPI} (spec : SpinAppSpec L)
    (limit : String) (hacc : validateInvocationLimits spec = none)
    (hl : spec.InvocationLimits.lookup "memory" = some limit) :
    ∃ q, L.ParseQuantity limit = some q
      ∧ (∀ l, spec.Resources.Limits.lookup "memory" = some l → L.Cmp q l ≤ 0)
      ∧ (∀ r, spec.Resources.Requests.lookup "memory" = some r →
          spec.Resources.Limits.lookup "memory" = none → L.Cmp q r ≤ 0) := by
  obtain ⟨q, hq⟩ := validateInvocationLimits_accepted_parses spec limit hacc hl
  have key := validateInvocationQuantity_rejects_iff spec q
  rw [← validateInvocationLimits_parsed spec limit q hl hq, hacc] at key
  have hno : ¬ ∃ t, comparisonTarget spec = some t ∧ 0 < L.Cmp q t := by
    intro h
    exact (key.mpr h) rfl
  refine ⟨q, hq, ?_, ?_⟩
  · intro l hlim
    by_contra hgt
    exact hno ⟨l, by simp [comparisonTarget, hlim], by omega⟩
  · intro r hr hlim
    by_contra hgt
    exact hno ⟨r, by simp [comparisonTarget, hlim, hr], by omega⟩

/-- Witness of the amended C10: with request 40Mi and limit 100Mi an invocation
limit of 50Mi is accepted, it parses, and it is at most the limit. -/
theorem validateInvocationLimits_accepted_bound_witness :
    validateInvocationLimits (invocationSpec [("memory", mi40)] [("memory", mi100)]) = none
    ∧ ∃ q, BinarySI.ParseQuantity "50Mi" = some q
        ∧ (∀ l, (invocationSpec [("memory", mi40)] [("memory", mi100)]).Resources.Limits.lookup
                  "memory" = some l → BinarySI.Cmp q l ≤ 0)
        ∧ (∀ r, (invocationSpec [("memory", mi40)] [("memory", mi100)]).Resources.Requests.lookup
                  "memory" = some r →
              (invocationSpec [("memory", mi40)] [("memory", mi100)]).Resources.Limits.lookup
                  "memory" = none → BinarySI.Cmp q r ≤ 0) :=
  ⟨by decide,
    validateInvocationLimits_accepted_bound
      (invocationSpec [("memory", mi40)] [("memory", mi100)]) "50Mi" (by decide) rfl⟩

/-- C10 as stated fails: with memory request 40Mi and memory limit 100Mi, the
invocation limit "50Mi" is accepted, it parses to 50Mi, a request of 40Mi is
declared, and 50Mi is greater than that request. -/
theorem validateInvocationLimits_request_bound_counterexample :
    validateInvocationLimits (invocationSpec [("memory", mi40)] [("memory", mi100)]) = none
    ∧ (invocationSpec [("memory", mi40)] [("memory", mi100)]).InvocationLimits.lookup "memory"
        = some "50Mi"
    ∧ BinarySI.ParseQuantity "50Mi" = some mi50
    ∧ (invocationSpec [("memory", mi40)] [("memory", mi100)]).Resources.Requests.lookup "memory"
        = some mi40
    ∧ ¬ BinarySI.Cmp mi50 mi40 ≤ 0 := by
  decide

theorem validateInvocationQuantity_error {L : QuantityAPI} (spec : SpinAppSpec L)
    (q : L.Quantity) (e : FieldError)
    (h : validateInvocationQuantity q spec "memory" = some e) :
    ∃ t, comparisonTarget spec = some t ∧ 0 < L.Cmp q t
      ∧ e = { ErrType := .ErrorTypeInvalid, Field := "spec.invocationLimits[memory]",
              BadValue := .str (L.String q),
              Detail := "invocation limit quantity cannot be greater than the memory "
                ++ (if (spec.Resources.Requests.lookup "memory").isSome
                      && (spec.Resources.Limits.lookup "memory").isNone
                    then "request" else "limit")
                ++ " (" ++ L.String t ++ ")" } := by
  have hp : (((Path.NewPath "spec").Child "invocationLimits").Key "memory").toStr
      = "spec.invocationLimits[memory]" := by decide
  have hm : ∀ (a b : String),
      "invocation limit quantity cannot be greater than the " ++ "memory" ++ " " ++ a
          ++ " (" ++ b ++ ")"
        = "invocation limit quantity cannot be greater than the memory " ++ a
          ++ " (" ++ b ++ ")" := by
    intro a b
    have h0 : "invocation limit quantity cannot be greater than the " ++ "memory" ++ " "
        = "invocation limit quantity cannot be greater than the memory " := by decide
    rw [h0]
  unfold validateInvocationQuantity at h
  unfold comparisonTarget
  cases hr : spec.Resources.Requests.lookup "memory" with
  | none =>
    cases hlim : spec.Resources.Limits.lookup "memory" with
    | none => simp [hr, hlim] at h
    | some l =>
      by_cases hc : 0 < L.Cmp q l
      · simp only [hr, hlim, gt_iff_lt, hc, if_true, Option.some.injEq] at h
        refine ⟨l, rfl, hc, ?_⟩
        rw [← h]
        simp [fieldInvalid, hp, hm]
      · simp [hr, hlim, hc] at h
  | some r =>
    cases hlim : spec.Resources.Limits.lookup "memory" with
    | none =>
      by_cases hc : 0 < L.Cmp q r
      · simp only [hr, hlim, gt_iff_lt, hc, if_true, Option.some.injEq] at h
        refine ⟨r, rfl, hc, ?_⟩
        rw [← h]
        simp [fieldInvalid, hp, hm]
      · simp [hr, hlim, hc] at h
    | some l =>
      by_cases hc : 0 < L.Cmp q l
      · simp only [hr, hlim, gt_iff_lt, hc, if_true, Option.some.injEq] at h
        refine ⟨l, rfl, hc, ?_⟩
        rw [← h]
        simp [fieldInvalid, hp, hm]
      · simp [hr, hlim, hc] at h

/-- C11: when `validateInvocationLimits` rejects a memory invocation limit that
parses to q, q exceeds its comparison target t and the error is the Invalid
error at `spec.invocationLimits[memory]` with value the rendering of q and
message "invocation limit quantity cannot be greater than the memory T (V)",
where T is "request" exactly when a memory request is declared and no memory
limit is, "limit" otherwise, and V is the rendering of t. With a request of 40Mi
only and an invocation limit of 50Mi the message ends in "request (40Mi)"; with
a limit of 40Mi only it ends in "limit (40Mi)". -/
theorem validateInvocationLimits_exceeded_error {L : QuantityAPI} (spec : SpinAppSpec L)
    (limit : String) (q : L.Quantity) (e : FieldError)
    (hl : spec.InvocationLimits.lookup "memory" = some limit)
    (hq : L.ParseQuantity limit = some q)
    (hrej : validateInvocationLimits spec = some e) :
    (∃ t, comparisonTarget spec = some t ∧ 0 < L.Cmp q t
      ∧ e = { ErrType := .ErrorTypeInvalid, Field := "spec.invocationLimits[memory]",
              BadValue := .str (L.String q),
              Detail := "invocation limit quantity cannot be greater than the memory "
                ++ (if (spec.Resources.Requests.lookup "memory").isSome
                      && (spec.Resources.Limits.lookup "memory").isNone
                    then "request" else "limit")
                ++ " (" ++ L.String t ++ ")" })
    ∧ validateInvocationLimits (invocationSpec [("memory", mi40)] [])
        = some { ErrType := .ErrorTypeInvalid, Field := "spec.invocationLimits[memory]",
                 BadValue := .str "50Mi",
                 Detail := "invocation limit quantity cannot be greater than the memory request (40Mi)" }
    ∧ validateInvocationLimits (invocationSpec [] [("memory", mi40)])
        = some { ErrType := .ErrorTypeInvalid, Field := "spec.invocationLimits[memory]",
                 BadValue := .str "50Mi",
                 Detail := "invocation limit quantity cannot be greater than the memory limit (40Mi)" } := by
  refine ⟨?_, by decide, by decide⟩
  rw [validateInvocationLimits_parsed spec limit q hl hq] at hrej
  exact validateInvocationQuantity_error spec q e hrej

/-- Witness of C11: request 40Mi and limit 40Mi both declared, invocation limit
50Mi; the error names the limit. -/
theorem validateInvocationLimits_exceeded_error_witness :
    validateInvocationLimits (invocationSpec [("memory", mi40)] [("memory", mi40)])
      = some { ErrType := .ErrorTypeInvalid, Field := "spec.invocationLimits[memory]",
               BadValue := .str "50Mi",
               Detail := "invocation limit quantity cannot be greater than the memory limit (40Mi)" }
    ∧ ∃ t, comparisonTarget (invocationSpec [("memory", mi40)] [("memory", mi40)]) = some t
      ∧ 0 < BinarySI.Cmp mi50 t
      ∧ ({ ErrType := .ErrorTypeInvalid, Field := "spec.invocationLimits[memory]",
           BadValue := .str "50Mi",
           Detail := "invocation limit quantity cannot be greater than the memory limit (40Mi)" }
          : FieldError)
        = { ErrType := .ErrorTypeInvalid, Field := "spec.invocationLimits[memory]",
            BadValue := .str (BinarySI.String mi50),
            Detail := "invocation limit quantity cannot be greater than the memory "
              ++ (if ((invocationSpec [("memory", mi40)] [("memory", mi40)]).Resources.Requests.lookup
                        "memory").isSome
                    && ((invocationSpec [("memory", mi40)] [("memory", mi40)]).Resources.Limits.lookup
                        "memory").isNone
                  then "request" else "limit")
              ++ " (" ++ BinarySI.String t ++ ")" } :=
  ⟨by decide,
    (validateInvocationLimits_exceeded_error
      (invocationSpec [("memory", mi40)] [("memory", mi40)]) "50Mi" mi50
      { ErrType := .ErrorTypeInvalid, Field := "spec.invocationLimits[memory]",
        BadValue := .str "50Mi",
        Detail := "invocation limit quantity cannot be greater than the memory limit (40Mi)" }
      rfl rfl (by decide)).1⟩

/-- C12: for every spec whose invocationLimits has a "memory" entry that does
not parse as a quantity, `validateInvocationLimits` returns the Invalid error at
`spec.invocationLimits[memory]` whose value is the raw string and whose message
is "memory limit must be a valid memory quantity (e.g. 128Mi, 1Gi)", whatever
memory request or limit the spec declares; no comparison takes place. -/
theorem validateInvocationLimits_parse_failure {L : QuantityAPI} (spec : SpinAppSpec L)
    (limit : String) (hl : spec.InvocationLimits.lookup "memory" = some limit)
    (hp : L.ParseQuantity limit = none) :
    validateInvocationLimits spec
      = some { ErrType := .ErrorTypeInvalid, Field := "spec.invocationLimits[memory]",
               BadValue := .str limit,
               Detail := "memory limit must be a valid memory quantity (e.g. 128Mi, 1Gi)" } :=
  validateInvocationLimits_unparsed spec limit hl hp

/-- Witness of C12: the invocation limit "garbage" with a declared request and
limit. -/
theorem validateInvocationLimits_parse_failure_witness :
    validateInvocationLimits
        ({ invocationSpec [("memory", mi40)] [("memory", mi100)] with
           InvocationLimits := [("memory", "garbage")] } : SpinAppSpec BinarySI)
      = some { ErrType := .ErrorTypeInvalid, Field := "spec.invocationLimits[memory]",
               BadValue := .str "garbage",
               Detail := "memory limit must be a valid memory quantity (e.g. 128Mi, 1Gi)" } :=
  validateInvocationLimits_parse_failure
    ({ invocationSpec [("memory", mi40)] [("memory", mi100)] with
       InvocationLimits := [("memory", "garbage")] } : SpinAppSpec BinarySI)
    "garbage" rfl rfl

/-- C13: for every spec whose invocationLimits has no "memory" key, the nil or
empty map included, `validateInvocationLimits` accepts, whatever memory request
and limit the spec declares and whatever its other fields are. -/
theorem validateInvocationLimits_no_memory_key {L : QuantityAPI} (spec : SpinAppSpec L)
    (hl : spec.InvocationLimits.lookup "memory" = none) :
    validateInvocationLimits spec = none := by
  simp [validateInvocationLimits, hl]

/-- Witness of C13: only a `cpu` invocation limit, with a memory request and
limit declared. -/
theorem validateInvocationLimits_no_memory_key_witness :
    validateInvocationLimits
        ({ invocationSpec [("memory", mi40)] [("memory", mi40)] with
           InvocationLimits := [("cpu", "garbage")] } : SpinAppSpec BinarySI)
      = none :=
  validateInvocationLimits_no_memory_key
    ({ invocationSpec [("memory", mi40)] [("memory", mi40)] with
       InvocationLimits := [("cpu", "garbage")] } : SpinAppSpec BinarySI)
    (by decide)

/-- C14: invocation-limit keys other than "memory" are ignored: two specs that
agree on the "memory" entry of invocationLimits, on the memory request and on
the memory limit get the same result from `validateInvocationLimits`, whatever
the other keys and values of invocationLimits, the other resources and the
other fields are. -/
theorem validateInvocationLimits_only_memory {L : QuantityAPI} (s₁ s₂ : SpinAppSpec L)
    (hi : s₁.InvocationLimits.lookup "memory" = s₂.InvocationLimits.lookup "memory")
    (hr : s₁.Resources.Requests.lookup "memory" = s₂.Resources.Requests.lookup "memory")
    (hlim : s₁.Resources.Limits.lookup "memory" = s₂.Resources.Limits.lookup "memory") :
    validateInvocationLimits s₁ = validateInvocationLimits s₂ := by
  unfold validateInvocationLimits validateInvocationQuantity
  simp only [ResourceMemory]
  rw [hi, hr, hlim]

/-- Witness of C14: an unparseable `cpu` invocation limit and `cpu` resources
do not change the result. -/
theorem validateInvocationLimits_only_memory_witness :
    validateInvocationLimits (extraKeysSpec [("memory", mi40)] [])
      = validateInvocationLimits (invocationSpec [("memory", mi40)] []) :=
  validateInvocationLimits_only_memory (extraKeysSpec [("memory", mi40)] [])
    (invocationSpec [("memory", mi40)] []) (by decide) (by decide) (by decide)

/-! ## The executor across the rules -/

theorem validateExecutor_error_no_executor {L : QuantityAPI} (spec : SpinAppSpec L)
    (fetchExecutor : Lookup) (e : FieldError)
    (h : (validateExecutor spec fetchExecutor).2 = some e) :
    (validateExecutor spec fetchExecutor).1 = none := by
  unfold validateExecutor at h ⊢
  by_cases he : spec.Executor = ""
  · rw [if_pos he]
  · rw [if_neg he] at h ⊢
    rcases hx : fetchExecutor spec.Executor with ⟨executor, err⟩
    rw [hx] at h
    cases err with
    | none => simp at h
    | some err => rfl

theorem validateExecutor_congr {L : QuantityAPI} (spec : SpinAppSpec L) (f g : Lookup)
    (h : f spec.Executor = g spec.Executor) :
    validateExecutor spec f = validateExecutor spec g := by
  unfold validateExecutor
  rw [h]

theorem allErrs_congr {L : QuantityAPI} (v w : SpinAppValidator) (spinApp : SpinApp L)
    (h : v.Get { Name := spinApp.Spec.Executor, Namespace := spinApp.Namespace }
          = w.Get { Name := spinApp.Spec.Executor, Namespace := spinApp.Namespace }) :
    v.allErrs spinApp = w.allErrs spinApp := by
  have hf : v.fetchExecutor spinApp.Namespace spinApp.Spec.Executor
      = w.fetchExecutor spinApp.Namespace spinApp.Spec.Executor := by
    simp only [SpinAppValidator.fetchExecutor]
    rw [h]
  rw [allErrs_eq_concat, allErrs_eq_concat, validateExecutor_congr spinApp.Spec _ _ hf]

/-- C15: when the executor is absent, `validateAnnotations` returns no error,
even with non-empty deploymentAnnotations and podAnnotations; so when the
executor rule fails in `validateSpinApp`, the aggregated list is the executor
error followed by the errors of the replica and invocation-limit rules, it
holds no annotation error, and the validation rejects. -/
theorem validateAnnotations_skipped_without_executor {L : QuantityAPI} (v : SpinAppValidator)
    (spinApp : SpinApp L) :
    validateAnnotations spinApp.Spec none = none
    ∧ ∀ e, (validateExecutor spinApp.Spec (v.fetchExecutor spinApp.Namespace)).2 = some e →
        v.allErrs spinApp
            = e :: ((validateReplicas spinApp.Spec).toList
                ++ (validateInvocationLimits spinApp.Spec).toList)
        ∧ (∀ e' ∈ v.allErrs spinApp,
            e'.Field ≠ "spec.deploymentAnnotations" ∧ e'.Field ≠ "spec.podAnnotations")
        ∧ v.validateSpinApp spinApp
            = some (NewInvalid spinAppKind spinApp.Name (v.allErrs spinApp)) := by
  refine ⟨rfl, ?_⟩
  intro e he
  have hnone := validateExecutor_error_no_executor _ _ e he
  have hall : v.allErrs spinApp
      = e :: ((validateReplicas spinApp.Spec).toList
          ++ (validateInvocationLimits spinApp.Spec).toList) := by
    rw [allErrs_eq_concat, he, hnone]
    simp [validateAnnotations]
  refine ⟨hall, ?_, ?_⟩
  · intro e' hmem
    rw [hall] at hmem
    simp only [List.mem_cons, List.mem_append, Option.mem_toList, Option.mem_def] at hmem
    rcases hmem with hmem | hmem | hmem
    · subst hmem
      rw [validateExecutor_field _ _ e' he]
      exact ⟨by decide, by decide⟩
    · rw [validateReplicas_field _ e' hmem]
      exact ⟨by decide, by decide⟩
    · rw [validateInvocationLimits_field _ e' hmem]
      exact ⟨by decide, by decide⟩
  · rw [validateSpinApp_eq, hall]
    simp

/-- Witness of C15: an empty executor with both annotation maps non-empty gives
the executor error alone. -/
theorem validateAnnotations_skipped_without_executor_witness :
    annotatedNoExecutorApp.Spec.DeploymentAnnotations ≠ []
    ∧ annotatedNoExecutorApp.Spec.PodAnnotations ≠ []
    ∧ emptyStore.allErrs annotatedNoExecutorApp
        = [ { ErrType := .ErrorTypeInvalid, Field := "spec.executor", BadValue := .str "",
              Detail := "executor must be set, likely no default executor was set because you have no executors installed" } ] :=
  ⟨by decide, by decide,
    ((validateAnnotations_skipped_without_executor emptyStore annotatedNoExecutorApp).2
      { ErrType := .ErrorTypeInvalid, Field := "spec.executor", BadValue := .str "",
        Detail := "executor must be set, likely no default executor was set because you have no executors installed" }
      (by decide)).1⟩

/-- C16: `validateSpinApp` resolves the executor under the key (name =
`spec.Executor`, namespace = the namespace of the SpinApp) and under no other:
two stores that agree on the result of that key give the same error list and
the same verdict for the same SpinApp; and when that key fails, the executor
rule fails and the validation rejects, whatever the store holds under other
keys, such as the same name in another namespace. -/
theorem validateSpinApp_same_namespace_key {L : QuantityAPI} (v w : SpinAppValidator)
    (spinApp : SpinApp L)
    (h : v.Get { Name := spinApp.Spec.Executor, Namespace := spinApp.Namespace }
          = w.Get { Name := spinApp.Spec.Executor, Namespace := spinApp.Namespace }) :
    v.allErrs spinApp = w.allErrs spinApp
    ∧ v.validateSpinApp spinApp = w.validateSpinApp spinApp
    ∧ ∀ err, v.Get { Name := spinApp.Spec.Executor, Namespace := spinApp.Namespace }
          = .error err →
        (validateExecutor spinApp.Spec (v.fetchExecutor spinApp.Namespace)).2 ≠ none
        ∧ v.validateSpinApp spinApp ≠ none := by
  have hall := allErrs_congr v w spinApp h
  refine ⟨hall, ?_, ?_⟩
  · rw [validateSpinApp_eq, validateSpinApp_eq, hall]
  · intro err herr
    have hex : (validateExecutor spinApp.Spec (v.fetchExecutor spinApp.Namespace)).2 ≠ none := by
      unfold validateExecutor
      by_cases he : spinApp.Spec.Executor = ""
      · rw [if_pos he]
        simp
      · rw [if_neg he]
        simp [SpinAppValidator.fetchExecutor, herr]
    refine ⟨hex, ?_⟩
    rw [validateSpinApp_eq, allErrs_eq_concat]
    cases hx : (validateExecutor spinApp.Spec (v.fetchExecutor spinApp.Namespace)).2 with
    | none => exact absurd hx hex
    | some e => simp

/-- Witness of C16: `an-executor` exists in namespace `other` only; for an app in
`default` the store behaves as the empty store and the app is rejected. -/
theorem validateSpinApp_same_namespace_key_witness :
    otherNamespaceStore.Get { Name := "an-executor", Namespace := "other" }
      = .ok { Name := "an-executor", Namespace := "other", Spec := { CreateDeployment := true } }
    ∧ otherNamespaceStore.allErrs namedApp = emptyStore.allErrs namedApp
    ∧ otherNamespaceStore.validateSpinApp namedApp ≠ none :=
  ⟨rfl,
    (validateSpinApp_same_namespace_key otherNamespaceStore emptyStore namedApp rfl).1,
    ((validateSpinApp_same_namespace_key otherNamespaceStore emptyStore namedApp
      rfl).2.2 (.notFound "an-executor") rfl).2⟩

/-! ## Error of the replica rule -/

/-- C17: when `validateReplicas` rejects, the error is the Invalid error at
`spec.replicas` whose value is the replica count of the spec, with message
"replicas cannot be set when autoscaling is enabled" when autoscaling is enabled
and "replicas must be > 0" when it is disabled; for the zero-value spec it
renders as "spec.replicas: Invalid value: 0: replicas must be > 0". -/
theorem validateReplicas_error {L : QuantityAPI} (spec : SpinAppSpec L) (e : FieldError)
    (h : validateReplicas spec = some e) :
    e = { ErrType := .ErrorTypeInvalid, Field := "spec.replicas",
          BadValue := .int32 spec.Replicas,
          Detail := if spec.EnableAutoscaling then "replicas cannot be set when autoscaling is enabled"
                    else "replicas must be > 0" }
    ∧ ∀ fmt : ValueFormat,
        (validateReplicas (zeroSpec L)).map (FieldError.Error fmt)
          = some "spec.replicas: Invalid value: 0: replicas must be > 0" := by
  have hp : ((Path.NewPath "spec").Child "replicas").toStr = "spec.replicas" := by decide
  constructor
  · unfold validateReplicas at h
    cases ha : spec.EnableAutoscaling
    · by_cases hr : spec.Replicas < 1
      · simp [ha, hr] at h
        rw [← h]
        simp [fieldInvalid, hp]
      · simp [ha, hr] at h
    · by_cases hr : spec.Replicas = 0
      · simp [ha, hr] at h
      · simp [ha, hr] at h
        rw [← h]
        simp [fieldInvalid, hp]
  · intro fmt
    rw [validateReplicas_zero (zeroSpec L) rfl rfl]
    rfl

/-- Witness of C17: two replicas with autoscaling enabled. -/
theorem validateReplicas_error_witness :
    validateReplicas
        ({ zeroSpec BinarySI with Replicas := 2, EnableAutoscaling := true } : SpinAppSpec BinarySI)
      = some { ErrType := .ErrorTypeInvalid, Field := "spec.replicas", BadValue := .int32 2,
               Detail := "replicas cannot be set when autoscaling is enabled" }
    ∧ ({ ErrType := .ErrorTypeInvalid, Field := "spec.replicas", BadValue := .int32 2,
         Detail := "replicas cannot be set when autoscaling is enabled" } : FieldError)
      = { ErrType := .ErrorTypeInvalid, Field := "spec.replicas",
          BadValue := .int32
            ({ zeroSpec BinarySI with Replicas := 2, EnableAutoscaling := true }
              : SpinAppSpec BinarySI).Replicas,
          Detail :=
            if ({ zeroSpec BinarySI with Replicas := 2, EnableAutoscaling := true }
                  : SpinAppSpec BinarySI).EnableAutoscaling
            then "replicas cannot be set when autoscaling is enabled"
            else "replicas must be > 0" } :=
  ⟨by decide,
    (validateReplicas_error
      ({ zeroSpec BinarySI with Replicas := 2, EnableAutoscaling := true } : SpinAppSpec BinarySI)
      { ErrType := .ErrorTypeInvalid, Field := "spec.replicas", BadValue := .int32 2,
        Detail := "replicas cannot be set when autoscaling is enabled" }
      (by decide)).1⟩

/-! ## Delete and update -/

/-- C18: for every SpinApp and every store, `ValidateDelete` accepts with no
warnings and no error; so it does for `threeDefectsApp`, which `ValidateCreate`
rejects. -/
theorem ValidateDelete_accepts {L : QuantityAPI} (v : SpinAppValidator) (spinApp : SpinApp L) :
    v.ValidateDelete spinApp = ([], none)
    ∧ (emptyStore.ValidateCreate threeDefectsApp).2 ≠ none
    ∧ emptyStore.ValidateDelete threeDefectsApp = ([], none) :=
  ⟨rfl, by decide, rfl⟩

/-- C19: `ValidateUpdate` validates the new object only: for every old SpinApp,
new SpinApp and store, `ValidateUpdate old new` returns the warnings and error
of `ValidateCreate new`, so any two old objects give the same result. -/
theorem ValidateUpdate_eq_ValidateCreate {L : QuantityAPI} (v : SpinAppValidator)
    (oldObj newObj : SpinApp L) :
    v.ValidateUpdate oldObj newObj = v.ValidateCreate newObj
    ∧ ∀ otherOld : SpinApp L, v.ValidateUpdate otherOld newObj = v.ValidateUpdate oldObj newObj :=
  ⟨rfl, fun _ => rfl⟩

/-! ## At most one annotation error -/

theorem toList_length_le_one {α : Type} (o : Option α) : o.toList.length ≤ 1 := by
  cases o <;> simp

/-- C20: `validateAnnotations` returns at most one error, and
deploymentAnnotations takes precedence: for every deployment-less executor and
every spec with non-empty deploymentAnnotations the error returned is the one at
`spec.deploymentAnnotations`, whether or not podAnnotations is non-empty; the
error at `spec.podAnnotations` is returned only when deploymentAnnotations is
empty, and it is returned when podAnnotations is then non-empty; the list
aggregated by `validateSpinApp` never holds more than four errors. -/
theorem validateAnnotations_at_most_one {L : QuantityAPI} (spec : SpinAppSpec L)
    (executor : SpinAppExecutor) (hc : executor.Spec.CreateDeployment = false) :
    (∀ ex : Option SpinAppExecutor, (validateAnnotations spec ex).toList.length ≤ 1)
    ∧ (spec.DeploymentAnnotations ≠ [] →
        validateAnnotations spec (some executor)
          = some { ErrType := .ErrorTypeInvalid, Field := "spec.deploymentAnnotations",
                   BadValue := .stringMap spec.DeploymentAnnotations,
                   Detail := "deploymentAnnotations can't be set when the executor does not use operator deployments" })
    ∧ (∀ (ex : Option SpinAppExecutor) (e : FieldError), validateAnnotations spec ex = some e →
        e.Field = "spec.podAnnotations" → spec.DeploymentAnnotations = [])
    ∧ (spec.DeploymentAnnotations = [] → spec.PodAnnotations ≠ [] →
        validateAnnotations spec (some executor)
          = some { ErrType := .ErrorTypeInvalid, Field := "spec.podAnnotations",
                   BadValue := .stringMap spec.PodAnnotations,
                   Detail := "podAnnotations can't be set when the executor does not use operator deployments" })
    ∧ ∀ (v : SpinAppValidator) (spinApp : SpinApp L), (v.allErrs spinApp).length ≤ 4 := by
  have hpod : ((Path.NewPath "spec").Child "podAnnotations").toStr = "spec.podAnnotations" := by
    decide
  refine ⟨fun ex => toList_length_le_one _, ?_, ?_, ?_, ?_⟩
  · exact validateAnnotations_deployment_first spec executor hc
  · intro ex e he hf
    by_contra hd
    have := validateAnnotations_field_of_deployment spec ex hd e he
    rw [this] at hf
    exact absurd hf (by decide)
  · intro hd hp
    simp [validateAnnotations, hc, hd, hp, fieldInvalid, hpod]
  · intro v spinApp
    rw [allErrs_eq_concat]
    simp only [List.length_append]
    have h1 := toList_length_le_one
      (validateExecutor spinApp.Spec (v.fetchExecutor spinApp.Namespace)).2
    have h2 := toList_length_le_one (validateReplicas spinApp.Spec)
    have h3 := toList_length_le_one (validateAnnotations spinApp.Spec
      (validateExecutor spinApp.Spec (v.fetchExecutor spinApp.Namespace)).1)
    have h4 := toList_length_le_one (validateInvocationLimits spinApp.Spec)
    omega

/-- Witness of C20: with only deploymentAnnotations set, a deployment-less
executor gives the error at `spec.deploymentAnnotations`. -/
theorem validateAnnotations_at_most_one_witness :
    validateAnnotations
        ({ namedSpec BinarySI with DeploymentAnnotations := [("key", "asdf")] }
          : SpinAppSpec BinarySI)
        (some deploymentlessExecutor)
      = some { ErrType := .ErrorTypeInvalid, Field := "spec.deploymentAnnotations",
               BadValue := .stringMap [("key", "asdf")],
               Detail := "deploymentAnnotations can't be set when the executor does not use operator deployments" } :=
  (validateAnnotations_at_most_one
    ({ namedSpec BinarySI with DeploymentAnnotations := [("key", "asdf")] } : SpinAppSpec BinarySI)
    deploymentlessExecutor rfl).2.1 (by decide)

end SpinOperator
